import Mathlib

/-!
Verification of the vehicle/cargo toy (src/hw-6) and the media-file /
storage hierarchy (src/hw-5) of the repository, as a shallow embedding.

Numbers are modelled as `Int` (the examples in the repository use Python
integers; Python integer arithmetic is exact).  A Python method that
mutates `self` and may raise is modelled as a function from the receiver
state to a pair of the post-state and an optional error: when the method
raises, the object is left exactly as it was, which the pair makes
explicit.  Exception *messages* are not modelled, only the exception
class that is raised.
-/

/-- Errors raised by the vehicle toy: the three exception classes of
src/hw-6/exceptions.py. -/
inductive VehicleError where
  | lowFuelError
  | notEnoughFuel
  | cargoOverload
deriving DecidableEq, Repr

/-- State of `Vehicle` (src/hw-6/base.py, lines 9-18): fields `weight`,
`started`, `fuel`, `fuel_consumption`. -/
structure Vehicle where
  weight : Int
  started : Bool
  fuel : Int
  fuel_consumption : Int
deriving DecidableEq, Repr

/-- `Vehicle.__init__(weight=0, fuel=0, fuel_consumption=0)`: `started`
is the class attribute `False`. -/
def Vehicle.mkNew (weight fuel fuel_consumption : Int) : Vehicle :=
  { weight := weight, started := false, fuel := fuel,
    fuel_consumption := fuel_consumption }

/-- `Vehicle.start` (src/hw-6/base.py, lines 20-25): if not started, start
when `fuel > 0`, otherwise raise `LowFuelError`; if already started, do
nothing. -/
def Vehicle.start (v : Vehicle) : Vehicle × Option VehicleError :=
  if v.started = false then
    if v.fuel > 0 then ({ v with started := true }, none)
    else (v, some VehicleError.lowFuelError)
  else (v, none)

/-- `Vehicle.move(distance)` (src/hw-6/base.py, lines 27-32):
`fuel_needed = distance * fuel_consumption`; subtract it when
`fuel >= fuel_needed`, otherwise raise `NotEnoughFuel`. -/
def Vehicle.move (v : Vehicle) (distance : Int) : Vehicle × Option VehicleError :=
  let fuel_needed := distance * v.fuel_consumption
  if v.fuel ≥ fuel_needed then ({ v with fuel := v.fuel - fuel_needed }, none)
  else (v, some VehicleError.notEnoughFuel)

/-- State of `Plane` (src/hw-6/plane.py, lines 9-15): a `Vehicle` plus
`cargo` and `max_cargo`. -/
structure Plane extends Vehicle where
  cargo : Int
  max_cargo : Int
deriving DecidableEq, Repr

/-- `Plane.__init__(weight=0, fuel=0, fuel_consumption=0, max_cargo=0)`:
`cargo` stays at the class attribute `0`. -/
def Plane.mkNew (weight fuel fuel_consumption max_cargo : Int) : Plane :=
  { Vehicle.mkNew weight fuel fuel_consumption with
    cargo := 0, max_cargo := max_cargo }

/-- `Plane.load_cargo(amount)` (src/hw-6/plane.py, lines 17-21): add
`amount` when `cargo + amount <= max_cargo`, otherwise raise
`CargoOverload`. -/
def Plane.load_cargo (p : Plane) (amount : Int) : Plane × Option VehicleError :=
  if p.cargo + amount ≤ p.max_cargo then ({ p with cargo := p.cargo + amount }, none)
  else (p, some VehicleError.cargoOverload)

/-- `Plane.remove_all_cargo()` (src/hw-6/plane.py, lines 23-26): reset
`cargo` to `0` and return the previous value. -/
def Plane.remove_all_cargo (p : Plane) : Plane × Int :=
  ({ p with cargo := 0 }, p.cargo)

/-- A call in a sequence of `start` / `move` calls on a `Vehicle`. -/
inductive VehicleOp where
  | startOp
  | moveOp (distance : Int)
deriving DecidableEq, Repr

/-- The state after one `start` or `move` call: on an exception the object
is unchanged, so the post-state is well defined whether or not the caller
catches the exception. -/
def Vehicle.step (v : Vehicle) : VehicleOp → Vehicle
  | VehicleOp.startOp => (v.start).1
  | VehicleOp.moveOp d => (v.move d).1

/-- The state of a `Vehicle` after a sequence of `start` / `move` calls. -/
def Vehicle.runOps (v : Vehicle) (ops : List VehicleOp) : Vehicle :=
  ops.foldl Vehicle.step v

/-- `true` iff the call is `start` or a `move` with nonnegative distance. -/
def VehicleOp.distOk : VehicleOp → Bool
  | VehicleOp.startOp => true
  | VehicleOp.moveOp d => decide (0 ≤ d)

/-- A call in a sequence of `load_cargo` / `remove_all_cargo` calls. -/
inductive CargoOp where
  | loadOp (amount : Int)
  | removeAllOp
deriving DecidableEq, Repr

/-- The state after one cargo call (unchanged on `CargoOverload`). -/
def Plane.stepCargo (p : Plane) : CargoOp → Plane
  | CargoOp.loadOp a => (p.load_cargo a).1
  | CargoOp.removeAllOp => (p.remove_all_cargo).1

/-- The state of a `Plane` after a sequence of cargo calls. -/
def Plane.runCargo (p : Plane) (ops : List CargoOp) : Plane :=
  ops.foldl Plane.stepCargo p

/-!
The media-file hierarchy of src/hw-5/main.py.

File names and storage paths are modelled as `List Char` (Python
strings), so that the suffix tests of `str.endswith` and the splitting
of `str.split` can be reasoned about directly.  Metadata dictionaries
are modelled as association lists `List (String × MVal)` in insertion
order with unique keys maintained by `dictInsert`, matching the
semantics of Python `dict` and `dict.update`.  Metadata values are
opaque to every modelled operation, so they are modelled by the small
type `MVal` (`None`, a number, or a string).  `created_at` is not
modelled (its default is the wall clock and no modelled operation reads
it). -/

/-- The errors of src/hw-5/main.py: the `ValueError` raised on an
unsupported file type, and the `TypeError` Python raises when a
constructor receives an unexpected keyword argument. -/
inductive PyError where
  | typeError
  | valueError
deriving DecidableEq, Repr

/-- A metadata value: `None`, a number, or a string.  The code never
computes with metadata values, it only stores and copies them. -/
inductive MVal where
  | vnone
  | vint (n : Int)
  | vstr (s : String)
deriving DecidableEq, Repr

/-- The three concrete `MediaFile` variants of src/hw-5/main.py:
`AudioFile`, `VideoFile`, `PhotoFile`. -/
inductive MediaKind where
  | audio
  | video
  | photo
deriving DecidableEq, Repr

/-- A `MediaFile` object: its variant, `name`, `size`, `owner` and
`metadata` (src/hw-5/main.py, lines 12-19). -/
structure MediaFile where
  kind : MediaKind
  name : List Char
  size : Int
  owner : MVal
  metadata : List (String × MVal)
deriving DecidableEq, Repr

/-- Python `dict` lookup on the association-list model: the value of the
first entry whose key matches. -/
def mlookup : List (String × MVal) → String → Option MVal
  | [], _ => none
  | kv :: rest, k => if kv.1 = k then some kv.2 else mlookup rest k

/-- Setting one key of a Python `dict`: overwrite in place when the key
is present (keys are unique in a dict, so the first occurrence is the
occurrence), append otherwise (insertion order is preserved). -/
def dictInsert : List (String × MVal) → String → MVal → List (String × MVal)
  | [], k, v => [(k, v)]
  | kv :: rest, k, v =>
    if kv.1 = k then (k, v) :: rest else kv :: dictInsert rest k v

/-- Python `d.update(upd)`: set every key of `upd` in order. -/
def dictUpdate (d upd : List (String × MVal)) : List (String × MVal) :=
  upd.foldl (fun acc kv => dictInsert acc kv.1 kv.2) d

/-- The variant-specific metadata keys, in the order each variant's
`__init__` writes them (src/hw-5/main.py, lines 59-61, 106-107,
156-157). -/
def MediaKind.specificKeys : MediaKind → List String
  | MediaKind.audio => ["duration", "bitrate", "sample_rate", "channels"]
  | MediaKind.video => ["duration", "resolution", "frame_rate", "codec"]
  | MediaKind.photo => ["width", "height", "color_space", "camera_model"]

/-- Calling a variant constructor with a keyword-argument dictionary, as
`AudioFile(name, size, **kwargs)` does: each variant-specific parameter
defaults to `None` when absent, and an unexpected keyword raises
`TypeError`.  `self.metadata` starts as `{}` and is then updated with
the variant-specific pairs.  The base-class keyword parameters
`created_at`, `owner` and `metadata` are not modelled (no modelled call
site passes them), so here only the variant-specific keywords are
accepted. -/
def callVariantCtor (k : MediaKind) (name : List Char) (size : Int)
    (kwargs : List (String × MVal)) : Except PyError MediaFile :=
  if kwargs.all (fun kv => k.specificKeys.contains kv.1) then
    Except.ok
      { kind := k, name := name, size := size, owner := MVal.vnone,
        metadata := dictUpdate []
          (k.specificKeys.map (fun key => (key, (mlookup kwargs key).getD MVal.vnone))) }
  else Except.error PyError.typeError

/-- Python `s.split(c)` on the character-list model of strings. -/
def splitOnChar (c : Char) : List Char → List (List Char)
  | [] => [[]]
  | a :: rest =>
    if a = c then [] :: splitOnChar c rest
    else
      match splitOnChar c rest with
      | [] => [[a]]
      | g :: gs => (a :: g) :: gs

/-- `MediaFile.update_metadata` (src/hw-5/main.py, lines 36-38):
`self.metadata.update(metadata)`. -/
def MediaFile.update_metadata (m : MediaFile) (metadata : List (String × MVal)) :
    MediaFile :=
  { m with metadata := dictUpdate m.metadata metadata }

/-- `convert(target_format)` of each variant (src/hw-5/main.py, lines
78-83, 125-130, 175-180): build
`new_name = name.split(".")[0] + "." + target_format` and construct the
same variant by `AudioFile(new_name, self.size, **self.metadata)` (and
likewise for the other two variants). -/
def MediaFile.convert (m : MediaFile) (target_format : List Char) :
    Except PyError MediaFile :=
  let new_name := ((splitOnChar '.' m.name).headD []) ++ '.' :: target_format
  callVariantCtor m.kind new_name m.size m.metadata

/-- The audio extensions of the dispatch: `(".mp3", ".wav", ".flac")`. -/
def audioExts : List (List Char) := [".mp3".toList, ".wav".toList, ".flac".toList]

/-- The video extensions of the dispatch: `(".mp4", ".avi", ".mov")`. -/
def videoExts : List (List Char) := [".mp4".toList, ".avi".toList, ".mov".toList]

/-- The photo extensions of the dispatch: `(".jpg", ".png", ".gif")`. -/
def photoExts : List (List Char) := [".jpg".toList, ".png".toList, ".gif".toList]

/-- Python `path.endswith(exts)` with a tuple argument: `true` iff some
listed extension is a suffix of the path. -/
def pathMatches (path : List Char) (exts : List (List Char)) : Bool :=
  exts.any (fun e => e.isSuffixOf path)

/-- Python `path.split("/")[-1]`: the part after the last slash. -/
def filenameOf (path : List Char) : List Char :=
  (splitOnChar '/' path).getLastD []

/-- `MediaFileFactory.create_from_path(path, size, **kwargs)`
(src/hw-5/main.py, lines 381-392): dispatch on the path's extension and
construct the matching variant from `path.split("/")[-1]`, `size` and
the keyword arguments; raise `ValueError` otherwise. -/
def MediaFileFactory.create_from_path (path : List Char) (size : Int)
    (kwargs : List (String × MVal)) : Except PyError MediaFile :=
  let filename := filenameOf path
  if pathMatches path audioExts then callVariantCtor MediaKind.audio filename size kwargs
  else if pathMatches path videoExts then callVariantCtor MediaKind.video filename size kwargs
  else if pathMatches path photoExts then callVariantCtor MediaKind.photo filename size kwargs
  else Except.error PyError.valueError

/-- `LocalStorage.load(path)` (src/hw-5/main.py, lines 226-238): the
same extension dispatch, constructing the variant from
`path.split("/")[-1]` with a hardcoded placeholder size and no further
fields. -/
def LocalStorage.load (path : List Char) : Except PyError MediaFile :=
  if pathMatches path audioExts then callVariantCtor MediaKind.audio (filenameOf path) 1000000 []
  else if pathMatches path videoExts then callVariantCtor MediaKind.video (filenameOf path) 5000000 []
  else if pathMatches path photoExts then callVariantCtor MediaKind.photo (filenameOf path) 500000 []
  else Except.error PyError.valueError

/-- `CloudStorage.load(path)` (src/hw-5/main.py, lines 266-278): the
body is identical to `LocalStorage.load`; the constructor fields
(`provider`, `credentials`) only feed the diagnostic print. -/
def CloudStorage.load (path : List Char) : Except PyError MediaFile :=
  if pathMatches path audioExts then callVariantCtor MediaKind.audio (filenameOf path) 1000000 []
  else if pathMatches path videoExts then callVariantCtor MediaKind.video (filenameOf path) 5000000 []
  else if pathMatches path photoExts then callVariantCtor MediaKind.photo (filenameOf path) 500000 []
  else Except.error PyError.valueError

/-- `RemoteStorage.load(path)` (src/hw-5/main.py, lines 308-320): the
body is identical to `LocalStorage.load`; the constructor fields
(`host`, `port`, `username`, `password`) only feed the diagnostic
print. -/
def RemoteStorage.load (path : List Char) : Except PyError MediaFile :=
  if pathMatches path audioExts then callVariantCtor MediaKind.audio (filenameOf path) 1000000 []
  else if pathMatches path videoExts then callVariantCtor MediaKind.video (filenameOf path) 5000000 []
  else if pathMatches path photoExts then callVariantCtor MediaKind.photo (filenameOf path) 500000 []
  else Except.error PyError.valueError

/-- `S3Storage.load(path)` (src/hw-5/main.py, lines 350-362): the body
is identical to `LocalStorage.load`; the constructor fields (`bucket`,
`region`, `access_key`, `secret_key`) only feed the diagnostic print. -/
def S3Storage.load (path : List Char) : Except PyError MediaFile :=
  if pathMatches path audioExts then callVariantCtor MediaKind.audio (filenameOf path) 1000000 []
  else if pathMatches path videoExts then callVariantCtor MediaKind.video (filenameOf path) 5000000 []
  else if pathMatches path photoExts then callVariantCtor MediaKind.photo (filenameOf path) 500000 []
  else Except.error PyError.valueError

/-- The variant of the result of a fallible construction, when it
succeeded. -/
def resultKind : Except PyError MediaFile → Option MediaKind
  | Except.ok m => some m.kind
  | Except.error _ => none

/-- The audio object of the example driver (src/hw-5/main.py, line 398):
`AudioFile("song.mp3", 5000000, duration=240, bitrate=320,
sample_rate=44100, channels=2, owner="John")`. -/
def mainAudio : MediaFile :=
  { kind := MediaKind.audio, name := "song.mp3".toList, size := 5000000,
    owner := MVal.vstr "John",
    metadata := [("duration", MVal.vint 240), ("bitrate", MVal.vint 320),
      ("sample_rate", MVal.vint 44100), ("channels", MVal.vint 2)] }

/-- The metadata update of the example driver (src/hw-5/main.py, line
412): `{"genre": "Rock", "artist": "Unknown"}`. -/
def mainUpdate : List (String × MVal) :=
  [("genre", MVal.vstr "Rock"), ("artist", MVal.vstr "Unknown")]

/-- C1: `Vehicle.move(distance)` computes `fuel_needed = distance *
fuel_consumption`; when `fuel_needed > fuel` it raises `NotEnoughFuel`
and leaves every field unchanged, and when `fuel_needed ≤ fuel` it
subtracts exactly `fuel_needed` from `fuel`; in particular
`Vehicle(fuel=10, fuel_consumption=2).move(4)` leaves `fuel = 2` and a
subsequent `move(2)` raises `NotEnoughFuel` leaving the state unchanged. -/
theorem vehicle_move_spec (v : Vehicle) (distance : Int) :
    (distance * v.fuel_consumption > v.fuel →
      v.move distance = (v, some VehicleError.notEnoughFuel)) ∧
    (distance * v.fuel_consumption ≤ v.fuel →
      v.move distance =
        ({ v with fuel := v.fuel - distance * v.fuel_consumption }, none)) ∧
    (Vehicle.mkNew 0 10 2).move 4 = ({ Vehicle.mkNew 0 10 2 with fuel := 2 }, none) ∧
    ({ Vehicle.mkNew 0 10 2 with fuel := 2 }).move 2 =
      ({ Vehicle.mkNew 0 10 2 with fuel := 2 }, some VehicleError.notEnoughFuel) := by
  refine ⟨fun h => ?_, fun h => ?_, by decide, by decide⟩
  · unfold Vehicle.move
    rw [if_neg (not_le.mpr h)]
  · unfold Vehicle.move
    rw [if_pos h]

/-- C1 witness: the general parts of `vehicle_move_spec` applied at the
concrete vehicle `Vehicle(fuel=10, fuel_consumption=2)`. -/
theorem vehicle_move_spec_witness :
    (Vehicle.mkNew 0 10 2).move 4 =
      ({ Vehicle.mkNew 0 10 2 with fuel := 2 }, none) ∧
    ({ Vehicle.mkNew 0 10 2 with fuel := 2 }).move 2 =
      ({ Vehicle.mkNew 0 10 2 with fuel := 2 }, some VehicleError.notEnoughFuel) := by
  constructor
  · have h := (vehicle_move_spec (Vehicle.mkNew 0 10 2) 4).2.1 (by decide)
    simpa using h
  · have h := (vehicle_move_spec { Vehicle.mkNew 0 10 2 with fuel := 2 } 2).1 (by decide)
    simpa using h

/-- C2: `Plane.load_cargo(amount)` raises `CargoOverload` and leaves
`cargo` unchanged exactly when `cargo + amount > max_cargo`, and
otherwise increases `cargo` by exactly `amount`; in particular for
`Plane(max_cargo=100)`, `load_cargo(60)` succeeds and a following
`load_cargo(50)` raises `CargoOverload`. -/
theorem plane_load_cargo_spec (p : Plane) (amount : Int) :
    (p.cargo + amount > p.max_cargo →
      p.load_cargo amount = (p, some VehicleError.cargoOverload)) ∧
    (p.cargo + amount ≤ p.max_cargo →
      p.load_cargo amount = ({ p with cargo := p.cargo + amount }, none)) ∧
    (Plane.mkNew 0 0 0 100).load_cargo 60 =
      ({ Plane.mkNew 0 0 0 100 with cargo := 60 }, none) ∧
    ({ Plane.mkNew 0 0 0 100 with cargo := 60 }).load_cargo 50 =
      ({ Plane.mkNew 0 0 0 100 with cargo := 60 }, some VehicleError.cargoOverload) := by
  refine ⟨fun h => ?_, fun h => ?_, by decide, by decide⟩
  · unfold Plane.load_cargo
    rw [if_neg (not_le.mpr h)]
  · unfold Plane.load_cargo
    rw [if_pos h]

/-- C2 witness: the general parts of `plane_load_cargo_spec` applied at
the concrete plane `Plane(max_cargo=100)` with 60 cargo loaded. -/
theorem plane_load_cargo_spec_witness :
    ({ Plane.mkNew 0 0 0 100 with cargo := 60 }).load_cargo 50 =
      ({ Plane.mkNew 0 0 0 100 with cargo := 60 }, some VehicleError.cargoOverload) ∧
    (Plane.mkNew 0 0 0 100).load_cargo 60 =
      ({ Plane.mkNew 0 0 0 100 with cargo := 60 }, none) := by
  constructor
  · exact (plane_load_cargo_spec { Plane.mkNew 0 0 0 100 with cargo := 60 } 50).1 (by decide)
  · have h := (plane_load_cargo_spec (Plane.mkNew 0 0 0 100) 60).2.1 (by decide)
    simpa using h

/-- C5 counterexample: for `Vehicle(fuel=-1)` (constructible, nothing
enforces `fuel ≥ 0`), `start` raises `LowFuelError` although
`fuel ≠ 0`, so "raises exactly when started == false and fuel == 0" is
false as stated: the code tests `fuel > 0`, not `fuel != 0`. -/
theorem vehicle_start_claim_counterexample :
    (Vehicle.mkNew 0 (-1) 0).started = false ∧
    ((Vehicle.mkNew 0 (-1) 0).start).2 = some VehicleError.lowFuelError ∧
    (Vehicle.mkNew 0 (-1) 0).fuel ≠ 0 := by decide

/-- C5 (amended): `Vehicle.start` raises `LowFuelError` exactly when
`started == false` and `fuel ≤ 0`; on failure it changes no field, and
when `started == false` and `fuel > 0` it sets `started` to `true` and
changes nothing else. -/
theorem vehicle_start_spec (v : Vehicle) :
    (((v.start).2 = some VehicleError.lowFuelError) ↔
      (v.started = false ∧ v.fuel ≤ 0)) ∧
    (v.started = false → v.fuel ≤ 0 →
      v.start = (v, some VehicleError.lowFuelError)) ∧
    (v.started = false → 0 < v.fuel →
      v.start = ({ v with started := true }, none)) := by
  unfold Vehicle.start
  rcases v with ⟨w, st, f, fc⟩
  cases st
  · by_cases hf : 0 < f
    · simp [hf, not_le.mpr hf]
    · simp [hf, not_lt.mp hf]
  · simp

/-- C5 witness: `vehicle_start_spec` applied at `Vehicle(fuel=0)`, where
`start` raises, and at `Vehicle(fuel=10)`, where it starts the vehicle. -/
theorem vehicle_start_spec_witness :
    (Vehicle.mkNew 0 0 0).start = (Vehicle.mkNew 0 0 0, some VehicleError.lowFuelError) ∧
    (Vehicle.mkNew 0 10 2).start = ({ Vehicle.mkNew 0 10 2 with started := true }, none) := by
  constructor
  · exact (vehicle_start_spec (Vehicle.mkNew 0 0 0)).2.1 (by decide) (by decide)
  · exact (vehicle_start_spec (Vehicle.mkNew 0 10 2)).2.2 (by decide) (by decide)

/-- C7: `Plane.remove_all_cargo()` returns the cargo held immediately
before the call, sets `cargo` to `0`, and changes no other field. -/
theorem remove_all_cargo_spec (p : Plane) :
    (p.remove_all_cargo).2 = p.cargo ∧
    (p.remove_all_cargo).1.cargo = 0 ∧
    (p.remove_all_cargo).1.toVehicle = p.toVehicle ∧
    (p.remove_all_cargo).1.max_cargo = p.max_cargo := by
  exact ⟨rfl, rfl, rfl, rfl⟩

/-- C9: calling `start` on a vehicle whose `started` field is already
`true` never raises and changes no field (the body is guarded by
`if not self.started`), even when `fuel == 0`; hence `start` is
idempotent once the vehicle has been started. -/
theorem vehicle_start_idempotent (v : Vehicle) (h : v.started = true) :
    v.start = (v, none) := by
  unfold Vehicle.start
  rw [h]
  simp

/-- C9 witness: `vehicle_start_idempotent` at an already-started vehicle
with zero fuel. -/
theorem vehicle_start_idempotent_witness :
    ({ Vehicle.mkNew 0 0 0 with started := true }).start =
      ({ Vehicle.mkNew 0 0 0 with started := true }, none) :=
  vehicle_start_idempotent { Vehicle.mkNew 0 0 0 with started := true } (by decide)

/-- `start` never changes `fuel` or `fuel_consumption`. -/
theorem start_preserves_fuel (v : Vehicle) :
    (v.start).1.fuel = v.fuel ∧ (v.start).1.fuel_consumption = v.fuel_consumption := by
  unfold Vehicle.start
  split_ifs <;> exact ⟨rfl, rfl⟩

/-- One `move` with nonnegative distance keeps nonnegative fuel and
never changes `fuel_consumption`. -/
theorem move_fuel_nonneg (v : Vehicle) (d : Int) (h1 : 0 ≤ v.fuel)
    (h2 : 0 ≤ v.fuel_consumption) (hd : 0 ≤ d) :
    0 ≤ (v.move d).1.fuel ∧ (v.move d).1.fuel_consumption = v.fuel_consumption := by
  simp only [Vehicle.move]
  split_ifs with hc
  · exact ⟨sub_nonneg.mpr hc, rfl⟩
  · exact ⟨h1, rfl⟩

/-- Auxiliary induction for the fuel half of the invariant claim. -/
theorem runOps_fuel_nonneg (ops : List VehicleOp) :
    ∀ v : Vehicle, 0 ≤ v.fuel → 0 ≤ v.fuel_consumption →
      ops.all VehicleOp.distOk = true →
      0 ≤ (v.runOps ops).fuel ∧ 0 ≤ (v.runOps ops).fuel_consumption := by
  induction ops with
  | nil => exact fun v h1 h2 _ => ⟨h1, h2⟩
  | cons op rest ih =>
    intro v h1 h2 hall
    rw [List.all_cons, Bool.and_eq_true] at hall
    have hstep : 0 ≤ (v.step op).fuel ∧ 0 ≤ (v.step op).fuel_consumption := by
      cases op with
      | startOp =>
        have h := start_preserves_fuel v
        exact ⟨h.1 ▸ h1, h.2 ▸ h2⟩
      | moveOp d =>
        have hd : 0 ≤ d := by
          have := hall.1
          simpa [VehicleOp.distOk] using this
        have h := move_fuel_nonneg v d h1 h2 hd
        exact ⟨h.1, h.2 ▸ h2⟩
    exact ih (v.step op) hstep.1 hstep.2 hall.2

/-- Auxiliary induction for the cargo half of the invariant claim. -/
theorem runCargo_le_max (ops : List CargoOp) :
    ∀ p : Plane, p.cargo ≤ p.max_cargo → 0 ≤ p.max_cargo →
      (p.runCargo ops).cargo ≤ (p.runCargo ops).max_cargo ∧
        0 ≤ (p.runCargo ops).max_cargo := by
  induction ops with
  | nil => exact fun p h1 h2 => ⟨h1, h2⟩
  | cons op rest ih =>
    intro p h1 h2
    have hstep : (p.stepCargo op).cargo ≤ (p.stepCargo op).max_cargo ∧
        0 ≤ (p.stepCargo op).max_cargo := by
      cases op with
      | loadOp a =>
        simp only [Plane.stepCargo, Plane.load_cargo]
        split_ifs with hc
        · exact ⟨hc, h2⟩
        · exact ⟨h1, h2⟩
      | removeAllOp => exact ⟨h2, h2⟩
    exact ih (p.stepCargo op) hstep.1 hstep.2

/-- C8: for every `Vehicle` constructed with `fuel ≥ 0` and
`fuel_consumption ≥ 0` (here: every state with those fields
nonnegative), `fuel` stays nonnegative after every sequence of `start`
and `move` calls with nonnegative distances; and every `Plane`
constructed with `cargo ≤ max_cargo` keeps `cargo ≤ max_cargo` after
every sequence of `load_cargo` and `remove_all_cargo` calls. -/
theorem fuel_cargo_invariants :
    (∀ v : Vehicle, 0 ≤ v.fuel → 0 ≤ v.fuel_consumption →
      ∀ ops : List VehicleOp, ops.all VehicleOp.distOk = true →
        0 ≤ (v.runOps ops).fuel) ∧
    (∀ weight fuel fuel_consumption max_cargo : Int,
      (Plane.mkNew weight fuel fuel_consumption max_cargo).cargo ≤ max_cargo →
      ∀ ops : List CargoOp,
        ((Plane.mkNew weight fuel fuel_consumption max_cargo).runCargo ops).cargo ≤
          ((Plane.mkNew weight fuel fuel_consumption max_cargo).runCargo ops).max_cargo) := by
  constructor
  · exact fun v h1 h2 ops hall => (runOps_fuel_nonneg ops v h1 h2 hall).1
  · intro weight fuel fuel_consumption max_cargo hcm ops
    have h0 : (Plane.mkNew weight fuel fuel_consumption max_cargo).cargo = 0 := rfl
    have hmax : (Plane.mkNew weight fuel fuel_consumption max_cargo).max_cargo =
        max_cargo := rfl
    exact (runCargo_le_max ops _ (hmax ▸ hcm) (hmax ▸ h0 ▸ hcm)).1

/-- C8 witness: `fuel_cargo_invariants` applied to
`Vehicle(fuel=10, fuel_consumption=2)` with the call sequence
`start(); move(4)` and to `Plane(max_cargo=100)` with the call sequence
`load_cargo(60); remove_all_cargo()`. -/
theorem fuel_cargo_invariants_witness :
    0 ≤ ((Vehicle.mkNew 0 10 2).runOps
      [VehicleOp.startOp, VehicleOp.moveOp 4]).fuel ∧
    ((Plane.mkNew 0 0 0 100).runCargo
      [CargoOp.loadOp 60, CargoOp.removeAllOp]).cargo ≤
      ((Plane.mkNew 0 0 0 100).runCargo
        [CargoOp.loadOp 60, CargoOp.removeAllOp]).max_cargo :=
  ⟨fuel_cargo_invariants.1 (Vehicle.mkNew 0 10 2) (by decide) (by decide)
      [VehicleOp.startOp, VehicleOp.moveOp 4] (by decide),
    fuel_cargo_invariants.2 0 0 0 100 (by decide)
      [CargoOp.loadOp 60, CargoOp.removeAllOp]⟩

/-- C10: `Plane.load_cargo` places no lower bound on `amount`: with
`cargo = 0`, `max_cargo = 100` and `amount = -5` it succeeds (no
exception) and leaves `cargo = -5 < 0`. -/
theorem load_cargo_negative_amount :
    (Plane.mkNew 0 0 0 100).load_cargo (-5) =
      ({ Plane.mkNew 0 0 0 100 with cargo := -5 }, none) ∧
    ({ Plane.mkNew 0 0 0 100 with cargo := -5 }).cargo < 0 := by decide

/-- `dictInsert` behaves as a map update: looking up the inserted key
gives the new value, any other key is unchanged. -/
theorem mlookup_dictInsert (d : List (String × MVal)) (k : String) (v : MVal)
    (k' : String) :
    mlookup (dictInsert d k v) k' = if k' = k then some v else mlookup d k' := by
  induction d with
  | nil =>
    by_cases h : k' = k
    · subst h
      simp [dictInsert, mlookup]
    · have h' : ¬(k = k') := fun hh => h hh.symm
      simp [dictInsert, mlookup, h, h']
  | cons kv0 rest ih =>
    by_cases h0 : kv0.1 = k
    · by_cases h : k' = k
      · subst h
        simp [dictInsert, mlookup, h0]
      · have h' : ¬(k = k') := fun hh => h hh.symm
        have h0' : ¬(kv0.1 = k') := fun hh => h' (h0 ▸ hh)
        simp [dictInsert, mlookup, h0, h, h', h0']
    · by_cases h1 : kv0.1 = k'
      · have hk' : ¬(k' = k) := fun hh => h0 (h1.trans hh)
        simp [dictInsert, mlookup, h0, h1, hk']
      · simp [dictInsert, mlookup, h0, h1, ih]

/-- `dict.update` is a merge: keys of the update map to the update's
values, all other keys keep their previous values. -/
theorem mlookup_dictUpdate (upd : List (String × MVal)) :
    ∀ (d : List (String × MVal)) (k : String), (upd.map Prod.fst).Nodup →
      mlookup (dictUpdate d upd) k =
        if k ∈ upd.map Prod.fst then mlookup upd k else mlookup d k := by
  induction upd with
  | nil => intro d k _; simp [dictUpdate, mlookup]
  | cons kv0 rest ih =>
    intro d k hnd
    rw [List.map_cons, List.nodup_cons] at hnd
    have hstep : dictUpdate d (kv0 :: rest) =
        dictUpdate (dictInsert d kv0.1 kv0.2) rest := rfl
    rw [hstep, ih _ k hnd.2]
    by_cases h1 : k ∈ rest.map Prod.fst
    · have hne : ¬(k = kv0.1) := fun he => hnd.1 (he ▸ h1)
      have hne' : ¬(kv0.1 = k) := fun he => hne he.symm
      have hmem : k ∈ List.map Prod.fst (kv0 :: rest) :=
        List.map_cons Prod.fst kv0 rest ▸ List.mem_cons_of_mem _ h1
      simp [h1, hne', hmem, mlookup]
    · rw [if_neg h1, mlookup_dictInsert]
      by_cases h2 : k = kv0.1
      · have hmem : k ∈ List.map Prod.fst (kv0 :: rest) := by
          rw [List.map_cons, h2]
          exact List.mem_cons_self _ _
        simp [h2, hmem, mlookup]
      · have hmem : k ∉ kv0.1 :: List.map Prod.fst rest := by
          simp [List.mem_cons, h2, h1]
        have h2' : ¬(kv0.1 = k) := fun he => h2 he.symm
        simp [h2, h2', hmem, mlookup]

/-- C6: for every `MediaFile` `m` and mapping `d` (a Python dict, so its
keys are distinct), `update_metadata(d)` replaces `m.metadata` by the
merge in which every key of `d` maps to the value `d` gives it and every
other key keeps its previous value; no other field of `m` changes. -/
theorem update_metadata_spec (m : MediaFile) (d : List (String × MVal))
    (hd : (d.map Prod.fst).Nodup) :
    (∀ k, k ∈ d.map Prod.fst →
      mlookup (m.update_metadata d).metadata k = mlookup d k) ∧
    (∀ k, k ∉ d.map Prod.fst →
      mlookup (m.update_metadata d).metadata k = mlookup m.metadata k) ∧
    (m.update_metadata d).kind = m.kind ∧
    (m.update_metadata d).name = m.name ∧
    (m.update_metadata d).size = m.size ∧
    (m.update_metadata d).owner = m.owner := by
  refine ⟨fun k hk => ?_, fun k hk => ?_, rfl, rfl, rfl, rfl⟩
  · show mlookup (dictUpdate m.metadata d) k = mlookup d k
    rw [mlookup_dictUpdate d m.metadata k hd, if_pos hk]
  · show mlookup (dictUpdate m.metadata d) k = mlookup m.metadata k
    rw [mlookup_dictUpdate d m.metadata k hd, if_neg hk]

/-- C6 witness: `update_metadata_spec` on the example driver's audio
object and its update `{"genre": "Rock", "artist": "Unknown"}`: the new
key `genre` takes the update's value, the untouched key `bitrate` keeps
its value, and the name is unchanged. -/
theorem update_metadata_spec_witness :
    mlookup (mainAudio.update_metadata mainUpdate).metadata "genre" =
      mlookup mainUpdate "genre" ∧
    mlookup (mainAudio.update_metadata mainUpdate).metadata "bitrate" =
      mlookup mainAudio.metadata "bitrate" ∧
    (mainAudio.update_metadata mainUpdate).name = mainAudio.name := by
  have h := update_metadata_spec mainAudio mainUpdate (by decide)
  exact ⟨h.1 "genre" (by decide), h.2.1 "bitrate" (by decide), h.2.2.2.1⟩

/-- The keys of a list of pairs built from a key list. -/
theorem keys_map_pairs (g : String → MVal) (L : List String) :
    (L.map (fun key => (key, g key))).map Prod.fst = L := by
  induction L with
  | nil => rfl
  | cons a l ih => simp [ih]

/-- Lookup in a list of pairs built from a key list. -/
theorem mlookup_map_pairs (g : String → MVal) (L : List String) (k : String) :
    mlookup (L.map (fun key => (key, g key))) k =
      if k ∈ L then some (g k) else none := by
  induction L with
  | nil => simp [mlookup]
  | cons a l ih =>
    by_cases h : a = k
    · subst h
      simp [mlookup]
    · have h' : ¬(k = a) := fun hh => h hh.symm
      simp [mlookup, h, h', ih, List.mem_cons]

/-- A successful lookup comes from an entry of the list. -/
theorem mem_of_mlookup_some (d : List (String × MVal)) (k : String) :
    (mlookup d k).isSome = true → ∃ kv ∈ d, kv.1 = k := by
  induction d with
  | nil => simp [mlookup]
  | cons kv0 rest ih =>
    by_cases h : kv0.1 = k
    · exact fun _ => ⟨kv0, List.mem_cons_self _ _, h⟩
    · simp only [mlookup, if_neg h]
      intro hs
      obtain ⟨kv, hm, hk⟩ := ih hs
      exact ⟨kv, List.mem_cons_of_mem _ hm, hk⟩

/-- The variant-specific key lists contain no duplicates. -/
theorem specificKeys_nodup (k : MediaKind) : k.specificKeys.Nodup := by
  cases k <;> decide

/-- `splitOnChar` never returns the empty list. -/
theorem splitOnChar_ne_nil (c : Char) (l : List Char) : splitOnChar c l ≠ [] := by
  cases l with
  | nil => simp [splitOnChar]
  | cons a rest =>
    simp only [splitOnChar]
    split_ifs
    · simp
    · rcases h : splitOnChar c rest with _ | ⟨g, gs⟩ <;> simp

/-- The part of `stem ++ "." ++ ext` before the first `c` is `stem`,
when `stem` itself contains no `c`. -/
theorem splitOnChar_head_of_prefix (c : Char) (stem ext : List Char)
    (hstem : c ∉ stem) :
    (splitOnChar c (stem ++ c :: ext)).headD [] = stem := by
  induction stem with
  | nil => simp [splitOnChar]
  | cons a s ih =>
    have hmem : ¬(c = a) ∧ c ∉ s := by
      rw [List.mem_cons] at hstem
      exact ⟨fun h => hstem (Or.inl h), fun h => hstem (Or.inr h)⟩
    have ha : ¬(a = c) := fun h => hmem.1 h.symm
    have ih' := ih hmem.2
    simp only [List.cons_append, splitOnChar, if_neg ha]
    rcases h : splitOnChar c (s ++ c :: ext) with _ | ⟨g, gs⟩
    · exact absurd h (splitOnChar_ne_nil c _)
    · rw [h] at ih'
      simp only [List.headD_cons] at ih'
      simp [ih']

/-- C4 counterexample: the example driver's own sequence (src/hw-5/
main.py, lines 412 and 417) refutes the claim as stated: after
`update_metadata({"genre": "Rock", "artist": "Unknown"})` the metadata
holds the key `genre`, and `convert("wav")` then calls
`AudioFile(new_name, size, **self.metadata)`, which raises `TypeError:
unexpected keyword argument` instead of returning an audio object. -/
theorem convert_claim_counterexample :
    (mainAudio.update_metadata mainUpdate).convert ("wav".toList) =
      Except.error PyError.typeError := by rfl

/-- C4 (amended): for every `MediaFile` variant whose metadata keys are
exactly the variant-specific keys (the shape every constructor call
with no extra fields produces), `convert(target_format)` returns a new
object of the same variant with the same size, a metadata mapping equal
to the original's, and the name rebuilt as the part of the original
name before its first `.` followed by `.` and the target format — so
when the original name has a single `.`, the name differs only in the
extension. -/
theorem convert_preserves_spec (m : MediaFile) (fmt : List Char)
    (hkeys : ∀ kv ∈ m.metadata, kv.1 ∈ m.kind.specificKeys)
    (hall : ∀ k ∈ m.kind.specificKeys, (mlookup m.metadata k).isSome = true) :
    ∃ m', m.convert fmt = Except.ok m' ∧
      m'.kind = m.kind ∧
      m'.size = m.size ∧
      (∀ k, mlookup m'.metadata k = mlookup m.metadata k) ∧
      m'.name = (splitOnChar '.' m.name).headD [] ++ '.' :: fmt ∧
      (∀ stem ext, m.name = stem ++ '.' :: ext → '.' ∉ stem →
        m'.name = stem ++ '.' :: fmt) := by
  have hcheck : m.metadata.all (fun kv => m.kind.specificKeys.contains kv.1) = true := by
    rw [List.all_eq_true]
    intro kv hkv
    exact List.elem_eq_true_of_mem (hkeys kv hkv)
  simp only [MediaFile.convert, callVariantCtor, hcheck, if_true]
  refine ⟨_, rfl, rfl, rfl, fun k => ?_, rfl, fun stem ext hname hdot => ?_⟩
  · rw [mlookup_dictUpdate _ _ _
      (by rw [keys_map_pairs]; exact specificKeys_nodup m.kind)]
    rw [keys_map_pairs]
    by_cases hk : k ∈ m.kind.specificKeys
    · rw [if_pos hk, mlookup_map_pairs, if_pos hk]
      have hs := hall k hk
      rcases hx : mlookup m.metadata k with _ | v
      · rw [hx] at hs
        simp at hs
      · rfl
    · rw [if_neg hk]
      rcases hx : mlookup m.metadata k with _ | v
      · rfl
      · exfalso
        obtain ⟨kv, hm, hkk⟩ := mem_of_mlookup_some m.metadata k (by rw [hx]; rfl)
        exact hk (hkk ▸ hkeys kv hm)
  · show (splitOnChar '.' m.name).headD [] ++ '.' :: fmt = stem ++ '.' :: fmt
    rw [hname, splitOnChar_head_of_prefix '.' stem ext hdot]

/-- C4 witness: `convert_preserves_spec` applied to the example driver's
audio object (before any metadata update) converted to `"wav"`. -/
theorem convert_preserves_spec_witness :
    ∃ m', mainAudio.convert ("wav".toList) = Except.ok m' ∧
      m'.kind = mainAudio.kind ∧
      m'.size = mainAudio.size ∧
      (∀ k, mlookup m'.metadata k = mlookup mainAudio.metadata k) ∧
      m'.name = (splitOnChar '.' mainAudio.name).headD [] ++ '.' :: "wav".toList ∧
      (∀ stem ext, mainAudio.name = stem ++ '.' :: ext → '.' ∉ stem →
        m'.name = stem ++ '.' :: "wav".toList) :=
  convert_preserves_spec mainAudio ("wav".toList) (by decide) (by decide)

/-- `pathMatches` is the disjunction of the suffix tests. -/
theorem pathMatches_iff (path : List Char) (E : List (List Char)) :
    pathMatches path E = true ↔ ∃ e ∈ E, e <:+ path := by
  simp [pathMatches, List.any_eq_true, List.isSuffixOf_iff_suffix]

/-- Two extension groups whose members are pairwise not suffixes of one
another cannot both match one path: `str.endswith` picks at most one
group, so the order of the `elif` chain does not matter. -/
theorem pathMatches_disjoint {path : List Char} {E1 E2 : List (List Char)}
    (hdisj : ∀ e1 ∈ E1, ∀ e2 ∈ E2, ¬e1 <:+ e2 ∧ ¬e2 <:+ e1)
    (h1 : pathMatches path E1 = true) : pathMatches path E2 = false := by
  rcases (pathMatches_iff path E1).1 h1 with ⟨e1, he1, hs1⟩
  cases h : pathMatches path E2 with
  | false => rfl
  | true =>
    exfalso
    rcases (pathMatches_iff path E2).1 h with ⟨e2, he2, hs2⟩
    rcases List.suffix_or_suffix_of_suffix hs1 hs2 with hss | hss
    · exact (hdisj e1 he1 e2 he2).1 hss
    · exact (hdisj e1 he1 e2 he2).2 hss

/-- C3: for every path, `MediaFileFactory.create_from_path` and the
`load` of every storage variant return an audio object when the path
ends in `.mp3`/`.wav`/`.flac`, a video object when it ends in
`.mp4`/`.avi`/`.mov`, a photo object when it ends in
`.jpg`/`.png`/`.gif`, and raise the unsupported-file-type `ValueError`
for every other path. -/
theorem media_dispatch_spec (path : List Char) (size : Int) :
    (pathMatches path audioExts = true →
      resultKind (MediaFileFactory.create_from_path path size []) = some MediaKind.audio ∧
      resultKind (LocalStorage.load path) = some MediaKind.audio ∧
      resultKind (CloudStorage.load path) = some MediaKind.audio ∧
      resultKind (RemoteStorage.load path) = some MediaKind.audio ∧
      resultKind (S3Storage.load path) = some MediaKind.audio) ∧
    (pathMatches path videoExts = true →
      resultKind (MediaFileFactory.create_from_path path size []) = some MediaKind.video ∧
      resultKind (LocalStorage.load path) = some MediaKind.video ∧
      resultKind (CloudStorage.load path) = some MediaKind.video ∧
      resultKind (RemoteStorage.load path) = some MediaKind.video ∧
      resultKind (S3Storage.load path) = some MediaKind.video) ∧
    (pathMatches path photoExts = true →
      resultKind (MediaFileFactory.create_from_path path size []) = some MediaKind.photo ∧
      resultKind (LocalStorage.load path) = some MediaKind.photo ∧
      resultKind (CloudStorage.load path) = some MediaKind.photo ∧
      resultKind (RemoteStorage.load path) = some MediaKind.photo ∧
      resultKind (S3Storage.load path) = some MediaKind.photo) ∧
    (pathMatches path audioExts = false → pathMatches path videoExts = false →
      pathMatches path photoExts = false →
      MediaFileFactory.create_from_path path size [] = Except.error PyError.valueError ∧
      LocalStorage.load path = Except.error PyError.valueError ∧
      CloudStorage.load path = Except.error PyError.valueError ∧
      RemoteStorage.load path = Except.error PyError.valueError ∧
      S3Storage.load path = Except.error PyError.valueError) := by
  refine ⟨fun ha => ?_, fun hv => ?_, fun hp => ?_, fun ha hv hp => ?_⟩
  · simp [MediaFileFactory.create_from_path, LocalStorage.load, CloudStorage.load,
      RemoteStorage.load, S3Storage.load, ha, callVariantCtor, resultKind]
  · have haf : pathMatches path audioExts = false :=
      pathMatches_disjoint
        (by decide : ∀ e1 ∈ videoExts, ∀ e2 ∈ audioExts, ¬e1 <:+ e2 ∧ ¬e2 <:+ e1) hv
    simp [MediaFileFactory.create_from_path, LocalStorage.load, CloudStorage.load,
      RemoteStorage.load, S3Storage.load, hv, haf, callVariantCtor, resultKind]
  · have haf : pathMatches path audioExts = false :=
      pathMatches_disjoint
        (by decide : ∀ e1 ∈ photoExts, ∀ e2 ∈ audioExts, ¬e1 <:+ e2 ∧ ¬e2 <:+ e1) hp
    have hvf : pathMatches path videoExts = false :=
      pathMatches_disjoint
        (by decide : ∀ e1 ∈ photoExts, ∀ e2 ∈ videoExts, ¬e1 <:+ e2 ∧ ¬e2 <:+ e1) hp
    simp [MediaFileFactory.create_from_path, LocalStorage.load, CloudStorage.load,
      RemoteStorage.load, S3Storage.load, hp, haf, hvf, callVariantCtor, resultKind]
  · simp [MediaFileFactory.create_from_path, LocalStorage.load, CloudStorage.load,
      RemoteStorage.load, S3Storage.load, ha, hv, hp]

/-- C3 witness: `media_dispatch_spec` applied at the driver's audio path
`"music/new_song.mp3"` and at the unsupported path `"document.txt"`. -/
theorem media_dispatch_spec_witness :
    (resultKind (MediaFileFactory.create_from_path ("music/new_song.mp3".toList) 3000000 []) =
        some MediaKind.audio ∧
      resultKind (LocalStorage.load ("music/new_song.mp3".toList)) = some MediaKind.audio ∧
      resultKind (CloudStorage.load ("music/new_song.mp3".toList)) = some MediaKind.audio ∧
      resultKind (RemoteStorage.load ("music/new_song.mp3".toList)) = some MediaKind.audio ∧
      resultKind (S3Storage.load ("music/new_song.mp3".toList)) = some MediaKind.audio) ∧
    (MediaFileFactory.create_from_path ("document.txt".toList) 3000000 [] =
        Except.error PyError.valueError ∧
      LocalStorage.load ("document.txt".toList) = Except.error PyError.valueError ∧
      CloudStorage.load ("document.txt".toList) = Except.error PyError.valueError ∧
      RemoteStorage.load ("document.txt".toList) = Except.error PyError.valueError ∧
      S3Storage.load ("document.txt".toList) = Except.error PyError.valueError) :=
  ⟨(media_dispatch_spec ("music/new_song.mp3".toList) 3000000).1 (by decide),
    (media_dispatch_spec ("document.txt".toList) 3000000).2.2.2
      (by decide) (by decide) (by decide)⟩
